import Mathlib

/-!
Verification development for the promise-keeper cache cell.

The model is a shallow embedding of the class in src/index.ts.  A cell
holds a producer function, the most recently started pending datum, the
most recently accepted settled datum, and the two flags isEmpty and
isPending.  The producer may return a thenable (a future, identified by
the invocation counter at the time it was produced) or a raw value with
no callable finally method.  Callbacks attached with finally are kept in
attachment order per future; attaching to an already resolved future
enqueues the callback on the microtask queue, which runs when the current
synchronous block ends (the drain step) and after every future
resolution.
-/

namespace PromiseKeeper

/-- Result of one producer call: either a thenable future carrying the id
of the invocation that created it, or a raw value with no finally
method. -/
inductive Produced where
  | thenable : Nat → Produced
  | raw : Nat → Produced
deriving DecidableEq, Repr

/-- Whether the produced datum has a callable finally method, as tested
by the invoke method of the source. -/
def Produced.hasFinally : Produced → Bool
  | .thenable _ => true
  | .raw _ => false

/-- Callbacks the cell attaches with finally: the settle step from
invoke, and the deferred clear from purge. -/
inductive Cb where
  | settle : Cb
  | clear : Cb
deriving DecidableEq, Repr

/-- The state of one cache cell together with the scheduling context it
interacts with: the callbacks attached to each not yet resolved future
(in attachment order), the set of resolved future ids, the microtask
queue of callbacks attached to already resolved futures, the invocation
counter of the producer closure, and the timer bookkeeping for
keepFresh. -/
structure World where
  settledData : Option Produced
  pendingData : Option Produced
  isEmpty : Bool
  isPending : Bool
  freshTimer : Option (Nat × Int)
  invCount : Nat
  timerCount : Nat
  cbs : List (Nat × Cb)
  resolvedIds : List Nat
  micro : List Cb
deriving DecidableEq, Repr

/-- A freshly constructed cell: empty, not pending, no timer, no
futures. -/
def World.init : World :=
  { settledData := none, pendingData := none, isEmpty := true,
    isPending := false, freshTimer := none, invCount := 0,
    timerCount := 0, cbs := [], resolvedIds := [], micro := [] }

/-- Attach a callback to a future with finally.  If the future has
already resolved the callback goes to the microtask queue, otherwise it
is appended to the attachment list of that future. -/
def attachCb (w : World) (f : Nat) (c : Cb) : World :=
  if f ∈ w.resolvedIds then { w with micro := w.micro ++ [c] }
  else { w with cbs := w.cbs ++ [(f, c)] }

/-- The settle method of the source: only when isPending is still true
does it copy pendingData into settledData and flip the flags. -/
def settleStep (w : World) : World :=
  if w.isPending then
    { w with settledData := w.pendingData, isEmpty := false,
             isPending := false }
  else w

/-- The clear method of the source: delete both data fields and reset
both flags. -/
def clearStep (w : World) : World :=
  { w with settledData := none, pendingData := none, isEmpty := true,
           isPending := false }

/-- Run one attached callback. -/
def runCb (w : World) : Cb → World
  | .settle => settleStep w
  | .clear => clearStep w

/-- Run a list of callbacks in order. -/
def runCbs (w : World) (l : List Cb) : World :=
  l.foldl runCb w

/-- Drain the microtask queue: run every queued callback in FIFO
order. -/
def drain (w : World) : World :=
  runCbs { w with micro := [] } w.micro

/-- The callbacks attached to future f, in attachment order. -/
def cbsFor (w : World) (f : Nat) : List Cb :=
  (w.cbs.filter (fun pr => pr.1 = f)).map (fun pr => pr.2)

/-- Resolution of future f: mark it resolved, move its callbacks to the
microtask queue and drain, matching the event loop where a resolution
runs all microtasks before the next event. -/
def resolveFut (w : World) (f : Nat) : World :=
  drain { w with resolvedIds := f :: w.resolvedIds,
                 cbs := w.cbs.filter (fun pr => pr.1 ≠ f),
                 micro := w.micro ++ cbsFor w f }

/-- The invoke method of the source: set isPending, call the producer
and store its result as pendingData; attach the settle callback when the
result has a finally method, otherwise settle synchronously. -/
def invoke (p : Nat → Produced) (w : World) : World :=
  let d := p w.invCount
  let w1 := { w with isPending := true, pendingData := some d,
                     invCount := w.invCount + 1 }
  match d with
  | .thenable f => attachCb w1 f .settle
  | .raw _ => settleStep w1

/-- The refresh method of the source: invoke only when not pending. -/
def refresh (p : Nat → Produced) (w : World) : World :=
  if !w.isPending then invoke p w else w

/-- The purge method of the source: attach a deferred clear to
pendingData when it exists and has a finally method, then clear
immediately. -/
def purge (w : World) : World :=
  let w1 := match w.pendingData with
    | some (.thenable f) => attachCb w f .clear
    | _ => w
  clearStep w1

/-- The getPending method of the source: refresh when empty, then return
pendingData. -/
def getPending (p : Nat → Produced) (w : World) : Option Produced × World :=
  let w1 := if w.isEmpty then refresh p w else w
  (w1.pendingData, w1)

/-- The getSettled method of the source: return settledData when not
empty, otherwise refresh and return pendingData. -/
def getSettled (p : Nat → Produced) (w : World) : Option Produced × World :=
  if !w.isEmpty then (w.settledData, w)
  else
    let w1 := refresh p w
    (w1.pendingData, w1)

/-- The getSettledOrThrowSync method of the source: a synchronous throw
when empty, otherwise the settled datum; the state is returned unchanged
because the method only reads it. -/
def getSettledOrThrowSync (w : World) : Except String (Option Produced) × World :=
  if w.isEmpty then (Except.error ("No settled data available."), w)
  else (Except.ok w.settledData, w)

/-- The getFresh method of the source: purge then getPending. -/
def getFresh (p : Nat → Produced) (w : World) : Option Produced × World :=
  getPending p (purge w)

/-- The stopFresh method of the source: clear the timer handle when one
is present. -/
def stopFresh (w : World) : World :=
  match w.freshTimer with
  | some _ => { w with freshTimer := none }
  | none => w

/-- The keepFresh method of the source: always stop any prior timer,
then install a new interval timer with the given interval; no validation
of the interval is performed. -/
def keepFresh (w : World) (interval : Int) : World :=
  let w1 := stopFresh w
  { w1 with freshTimer := some (w1.timerCount, interval),
            timerCount := w1.timerCount + 1 }

/-- One step of the system: any public cell operation, a timer tick
(which calls refresh), the resolution of a started and not yet resolved
future, or a drain of the microtask queue at the end of a synchronous
block. -/
inductive Step (p : Nat → Produced) : World → World → Prop where
  | doRefresh (w : World) : Step p w (refresh p w)
  | doPurge (w : World) : Step p w (purge w)
  | doGetPending (w : World) : Step p w (getPending p w).2
  | doGetSettled (w : World) : Step p w (getSettled p w).2
  | doGetFresh (w : World) : Step p w (getFresh p w).2
  | doKeepFresh (w : World) (i : Int) : Step p w (keepFresh w i)
  | doStopFresh (w : World) : Step p w (stopFresh w)
  | doTick (w : World) : w.freshTimer.isSome → Step p w (refresh p w)
  | doResolve (w : World) (f : Nat) : f < w.invCount → f ∉ w.resolvedIds →
      Step p w (resolveFut w f)
  | doDrain (w : World) : Step p w (drain w)

/-- States reachable from a fresh cell by any interleaving of operations
and completions. -/
inductive Reachable (p : Nat → Produced) : World → Prop where
  | init : Reachable p World.init
  | step {w w' : World} : Reachable p w → Step p w w' → Reachable p w'

/-- The producer used in the test traces: every invocation returns a
thenable, and invocation number n (counting from zero) yields future id
n, which the test producer resolves to the value n + 1. -/
def prodSeq : Nat → Produced := fun n => Produced.thenable n

/-- Value that future f of the test producer resolves to: the invocation
count at the time of the call, counting from one. -/
def futVal (f : Nat) : Nat := f + 1

/-- Total number of watcher attachments currently outstanding: callbacks
waiting on unresolved futures plus queued microtasks. -/
def attachCount (w : World) : Nat :=
  w.cbs.length + w.micro.length

/-- Invariant: an empty cell holds no settled datum. -/
def emptyNoSettled (w : World) : Prop :=
  w.isEmpty = true → w.settledData = none

/-- Trace of the purge-after-slow-invocation test: invocation number
zero is started (it will resolve last). -/
def slowTrace1 : World := (getPending prodSeq World.init).2

/-- Trace step: purge while invocation zero is in flight. -/
def slowTrace2 : World := purge slowTrace1

/-- Trace step: a read that starts invocation one (it will resolve
first). -/
def slowTrace3 : Option Produced × World := getPending prodSeq slowTrace2

/-- Trace step: invocation one resolves and settles. -/
def slowTrace4 : World := resolveFut slowTrace3.2 1

/-- Trace step: a read hitting the cache of invocation one. -/
def slowTrace5 : Option Produced × World := getPending prodSeq slowTrace4

/-- Trace step: the belated resolution of purged invocation zero, which
runs the deferred clear. -/
def slowTrace6 : World := resolveFut slowTrace5.2 0

/-- Trace step: a read after the deferred clear, starting invocation
two. -/
def slowTrace7 : Option Produced × World := getPending prodSeq slowTrace6

/-- Trace of a purge on a fully settled cell: invocation zero is
started. -/
def settledTrace1 : World := (getPending prodSeq World.init).2

/-- Trace step: invocation zero resolves and settles; no work remains in
flight. -/
def settledTrace2 : World := resolveFut settledTrace1 0

/-- Trace step: getFresh purges the settled cell (attaching a deferred
clear to the already resolved future zero) and starts invocation
one. -/
def settledTrace3 : Option Produced × World := getFresh prodSeq settledTrace2

/-- Trace step: the end of the synchronous block drains the microtask
queue, running the deferred clear before invocation one resolves. -/
def settledTrace4 : World := drain settledTrace3.2

/-- Trace step: invocation one resolves, but its settle is suppressed by
the isPending guard. -/
def settledTrace5 : World := resolveFut settledTrace4 1

/-- Trace leading to a stale settle firing under the pending flag of a
newer invocation: invocation zero is started. -/
def staleTrace1 : World := (getPending prodSeq World.init).2

/-- Trace step: invocation zero resolves and settles. -/
def staleTrace2 : World := resolveFut staleTrace1 0

/-- Trace step: purge the settled cell, queueing a deferred clear on the
already resolved future zero. -/
def staleTrace3 : World := purge staleTrace2

/-- Trace step: a read starts invocation one. -/
def staleTrace4 : World := (getPending prodSeq staleTrace3).2

/-- Trace step: the microtask drain runs the deferred clear, wiping the
pending state of invocation one while its future is still unresolved. -/
def staleTrace5 : World := drain staleTrace4

/-- Trace step: a read starts invocation two; the settle callback of
invocation one is still attached. -/
def staleTrace6 : World := (getPending prodSeq staleTrace5).2

/-- A stale-pending cell: settled data from invocation zero while
invocation one is in flight. -/
def stalePendingCell : World := refresh prodSeq settledTrace2

/-- An empty-pending cell: invocation zero has been started on a fresh
cell and has not resolved. -/
def pendingCell : World := (getPending prodSeq World.init).2

theorem emptyNoSettled_settleStep (w : World) (h : emptyNoSettled w) :
    emptyNoSettled (settleStep w) := by
  unfold settleStep
  split
  · intro hc
    simp at hc
  · exact h

theorem emptyNoSettled_clearStep (w : World) :
    emptyNoSettled (clearStep w) := by
  intro _
  rfl

theorem emptyNoSettled_runCb (w : World) (c : Cb) (h : emptyNoSettled w) :
    emptyNoSettled (runCb w c) := by
  cases c
  · exact emptyNoSettled_settleStep w h
  · exact emptyNoSettled_clearStep w

theorem emptyNoSettled_runCbs (l : List Cb) (w : World)
    (h : emptyNoSettled w) : emptyNoSettled (runCbs w l) := by
  induction l generalizing w with
  | nil => exact h
  | cons c cs ih =>
      exact ih (runCb w c) (emptyNoSettled_runCb w c h)

theorem emptyNoSettled_fields (w w' : World)
    (hE : w'.isEmpty = w.isEmpty) (hS : w'.settledData = w.settledData)
    (h : emptyNoSettled w) : emptyNoSettled w' := by
  intro hc
  rw [hS]
  exact h (hE ▸ hc)

theorem emptyNoSettled_drain (w : World) (h : emptyNoSettled w) :
    emptyNoSettled (drain w) := by
  unfold drain
  exact emptyNoSettled_runCbs w.micro _ (emptyNoSettled_fields w _ rfl rfl h)

theorem emptyNoSettled_attachCb (w : World) (f : Nat) (c : Cb)
    (h : emptyNoSettled w) : emptyNoSettled (attachCb w f c) := by
  unfold attachCb
  split
  · exact emptyNoSettled_fields w _ rfl rfl h
  · exact emptyNoSettled_fields w _ rfl rfl h

theorem emptyNoSettled_invoke (p : Nat → Produced) (w : World)
    (h : emptyNoSettled w) : emptyNoSettled (invoke p w) := by
  cases hp : p w.invCount with
  | thenable f =>
      simp only [invoke, hp]
      exact emptyNoSettled_attachCb _ f .settle
        (emptyNoSettled_fields w _ rfl rfl h)
  | raw v =>
      simp only [invoke, hp]
      exact emptyNoSettled_settleStep _
        (emptyNoSettled_fields w _ rfl rfl h)

theorem emptyNoSettled_refresh (p : Nat → Produced) (w : World)
    (h : emptyNoSettled w) : emptyNoSettled (refresh p w) := by
  unfold refresh
  split
  · exact emptyNoSettled_invoke p w h
  · exact h

theorem emptyNoSettled_purge (w : World) : emptyNoSettled (purge w) := by
  unfold purge
  exact emptyNoSettled_clearStep _

theorem emptyNoSettled_getPending (p : Nat → Produced) (w : World)
    (h : emptyNoSettled w) : emptyNoSettled (getPending p w).2 := by
  unfold getPending
  split
  · exact emptyNoSettled_refresh p w h
  · exact h

theorem emptyNoSettled_getSettled (p : Nat → Produced) (w : World)
    (h : emptyNoSettled w) : emptyNoSettled (getSettled p w).2 := by
  unfold getSettled
  split
  · exact h
  · exact emptyNoSettled_refresh p w h

theorem emptyNoSettled_resolveFut (w : World) (f : Nat)
    (h : emptyNoSettled w) : emptyNoSettled (resolveFut w f) := by
  unfold resolveFut
  exact emptyNoSettled_drain _ (emptyNoSettled_fields w _ rfl rfl h)

theorem emptyNoSettled_stopFresh (w : World) (h : emptyNoSettled w) :
    emptyNoSettled (stopFresh w) := by
  unfold stopFresh
  split
  · exact emptyNoSettled_fields w _ rfl rfl h
  · exact h

theorem emptyNoSettled_keepFresh (w : World) (i : Int)
    (h : emptyNoSettled w) : emptyNoSettled (keepFresh w i) := by
  unfold keepFresh
  exact emptyNoSettled_fields (stopFresh w) _ rfl rfl
    (emptyNoSettled_stopFresh w h)

theorem emptyNoSettled_step (p : Nat → Produced) (w w' : World)
    (hs : Step p w w') (h : emptyNoSettled w) : emptyNoSettled w' := by
  cases hs with
  | doRefresh => exact emptyNoSettled_refresh p w h
  | doPurge => exact emptyNoSettled_purge w
  | doGetPending => exact emptyNoSettled_getPending p w h
  | doGetSettled => exact emptyNoSettled_getSettled p w h
  | doGetFresh =>
      exact emptyNoSettled_getPending p (purge w) (emptyNoSettled_purge w)
  | doKeepFresh i => exact emptyNoSettled_keepFresh w i h
  | doStopFresh => exact emptyNoSettled_stopFresh w h
  | doTick => exact emptyNoSettled_refresh p w h
  | doResolve f => exact emptyNoSettled_resolveFut w f h
  | doDrain => exact emptyNoSettled_drain w h

theorem runCbs_keeps_cleared (l : List Cb) (w : World)
    (hE : w.isEmpty = true) (hS : w.settledData = none)
    (hP : w.isPending = false) :
    (runCbs w l).isEmpty = true ∧ (runCbs w l).settledData = none ∧
    (runCbs w l).isPending = false := by
  induction l generalizing w with
  | nil => exact ⟨hE, hS, hP⟩
  | cons c cs ih =>
      have h3 : (runCb w c).isEmpty = true ∧
          (runCb w c).settledData = none ∧
          (runCb w c).isPending = false := by
        cases c <;> simp [runCb, settleStep, clearStep, hP, hE, hS]
      exact ih (runCb w c) h3.1 h3.2.1 h3.2.2

/-- Claim C8: in every state reachable from the initial empty cell by
any sequence of operations and completions, isEmpty true implies that
the settled datum is absent. -/
theorem isEmpty_implies_no_settledData (p : Nat → Produced) (w : World)
    (hr : Reachable p w) : w.isEmpty = true → w.settledData = none := by
  induction hr with
  | init => intro _; rfl
  | step hr hs ih => exact emptyNoSettled_step p _ _ hs ih

/-- Witness for claim C8 at the initial cell, which is empty and has no
settled datum. -/
theorem isEmpty_implies_no_settledData_witness :
    World.init.isEmpty = true ∧ World.init.settledData = none :=
  ⟨rfl, isEmpty_implies_no_settledData prodSeq World.init Reachable.init rfl⟩

/-- Claim C1 counterexample: after the operation sequence getPending,
resolve invocation zero, purge, getPending, drain, getPending, the cell
is watching invocation two while the settle callback of invocation one
is still attached; resolving invocation one then updates settledData and
isEmpty and isPending even though invocation one is not the watched
invocation, marking the cell settled with the still unresolved future of
invocation two. -/
theorem race_guard_settle_counterexample :
    (1, Cb.settle) ∈ staleTrace6.cbs ∧
    staleTrace6.isPending = true ∧
    staleTrace6.pendingData = some (Produced.thenable 2) ∧
    ¬ staleTrace6.pendingData = some (Produced.thenable 1) ∧
    staleTrace6.isEmpty = true ∧
    (resolveFut staleTrace6 1).isEmpty = false ∧
    (resolveFut staleTrace6 1).settledData = some (Produced.thenable 2) ∧
    (resolveFut staleTrace6 1).isPending = false := by
  decide

/-- Claim C1 (amended): a settle updates settledValue, isEmpty and
isPending only if isPending is true at the moment the settle callback
runs, regardless of which invocation it originated from; consequently a
purge followed directly by the completion of the purged invocation, with
no intervening refresh, suppresses the settle and leaves the cell empty
rather than resurrecting the purged value. -/
theorem race_guard_settle_amended (w : World) (f : Nat) :
    (w.isPending = false → settleStep w = w) ∧
    (resolveFut (purge w) f).isEmpty = true ∧
    (resolveFut (purge w) f).settledData = none ∧
    (resolveFut (purge w) f).isPending = false := by
  refine ⟨?_, ?_⟩
  · intro hP
    simp [settleStep, hP]
  · unfold resolveFut drain
    exact runCbs_keeps_cleared _ _ rfl rfl rfl

/-- Witness for the amended claim C1 at the purged initial cell. -/
theorem race_guard_settle_amended_witness :
    settleStep (purge World.init) = purge World.init ∧
    (resolveFut (purge (purge World.init)) 0).isEmpty = true :=
  ⟨(race_guard_settle_amended (purge World.init) 0).1 (by decide),
   (race_guard_settle_amended (purge World.init) 0).2.1⟩

/-- Claim C2: in the trace where slow invocation zero is started, purge
is called, fast invocation one is started and resolves, a read then
returns the future of invocation one (value two); after the belated
resolution of invocation zero the deferred clear erases the cache, so
the next read starts fresh invocation two (value three) instead of
reusing invocation one. -/
theorem purge_slow_invocation_trace :
    (getPending prodSeq World.init).1 = some (Produced.thenable 0) ∧
    futVal 0 = 1 ∧
    slowTrace3.1 = some (Produced.thenable 1) ∧ futVal 1 = 2 ∧
    slowTrace5.1 = some (Produced.thenable 1) ∧
    slowTrace6.isEmpty = true ∧ slowTrace6.settledData = none ∧
    slowTrace7.1 = some (Produced.thenable 2) ∧ futVal 2 = 3 ∧
    ¬ slowTrace7.1 = some (Produced.thenable 1) := by
  decide

/-- Claim C3 counterexample: on a cell whose only invocation has fully
settled (nothing pending, every started future resolved), purge still
attaches an additional clear watcher, queued on the microtask queue of
the already resolved future; so the watcher is not attached only when a
pending invocation exists. -/
theorem purge_watcher_counterexample :
    settledTrace2.isPending = false ∧
    settledTrace2.resolvedIds = [0] ∧
    settledTrace2.cbs = [] ∧
    attachCount (purge settledTrace2) = attachCount settledTrace2 + 1 ∧
    (purge settledTrace2).micro = [Cb.clear] := by
  decide

/-- Claim C3 (amended): purge always immediately resets visible state,
and it attaches an additional clear watcher exactly when pendingData
holds a thenable at purge time, which includes a future whose invocation
has already settled, not only a pending invocation. -/
theorem purge_clears_and_watches_pendingData (w : World) :
    (purge w).isEmpty = true ∧ (purge w).settledData = none ∧
    (purge w).pendingData = none ∧ (purge w).isPending = false ∧
    attachCount (purge w) =
      attachCount w +
        (match w.pendingData with
         | some (Produced.thenable _) => 1
         | _ => 0) := by
  refine ⟨rfl, rfl, rfl, rfl, ?_⟩
  rcases hp : w.pendingData with _ | d
  · simp [purge, attachCount, attachCb, clearStep, hp]
  · cases d with
    | thenable f =>
        simp only [purge, hp, attachCb, clearStep, attachCount]
        split <;> simp [List.length_append] <;> omega
    | raw v => simp [purge, attachCount, attachCb, clearStep, hp]

/-- Claim C4 counterexample: with a timer installed at interval five,
calling keepFresh with interval minus one replaces the previously
scheduled timer with a new one carrying the invalid interval, instead of
leaving the prior timer running and installing nothing. -/
theorem keepFresh_invalid_interval_counterexample :
    (keepFresh World.init 5).freshTimer = some (0, 5) ∧
    (keepFresh (keepFresh World.init 5) (-1)).freshTimer = some (1, -1) ∧
    ¬ (keepFresh (keepFresh World.init 5) (-1)).freshTimer
        = (keepFresh World.init 5).freshTimer := by
  decide

/-- Claim C4 (amended): keepFresh performs no interval validation: for
every interval, including non-positive ones, it first stops any previous
timer and then installs a new timer with the given interval; it never
throws and leaves the cached data untouched. -/
theorem keepFresh_always_replaces_timer (w : World) (i : Int) :
    (keepFresh w i).freshTimer = some (w.timerCount, i) ∧
    (keepFresh w i).timerCount = w.timerCount + 1 ∧
    (keepFresh w i).settledData = w.settledData ∧
    (keepFresh w i).pendingData = w.pendingData ∧
    (keepFresh w i).isEmpty = w.isEmpty ∧
    (keepFresh w i).isPending = w.isPending := by
  unfold keepFresh stopFresh
  cases h : w.freshTimer <;> simp

/-- Claim C5: while a cell is pending, refresh starts no new invocation
and leaves the state unchanged, and two getPending calls made during one
in-flight invocation return the same pending future and leave the state
unchanged. -/
theorem refresh_noop_while_pending (p : Nat → Produced) (w : World)
    (h : w.isPending = true) :
    refresh p w = w ∧
    getPending p w = (w.pendingData, w) ∧
    (getPending p (getPending p w).2).1 = (getPending p w).1 ∧
    (getPending p (getPending p w).2).2 = w := by
  have h1 : refresh p w = w := by simp [refresh, h]
  have h2 : getPending p w = (w.pendingData, w) := by
    unfold getPending
    split <;> simp [h1]
  refine ⟨h1, h2, ?_, ?_⟩ <;> simp [h2]

/-- Witness for claim C5 at a cell with invocation zero in flight. -/
theorem refresh_noop_while_pending_witness :
    refresh prodSeq pendingCell = pendingCell ∧
    getPending prodSeq pendingCell = (pendingCell.pendingData, pendingCell) :=
  ⟨(refresh_noop_while_pending prodSeq pendingCell (by decide)).1,
   (refresh_noop_while_pending prodSeq pendingCell (by decide)).2.1⟩

/-- Claim C6: getSettledOrThrowSync fails synchronously with the
no-settled-data error exactly on an empty cell, returns the settled
datum on a non-empty cell, never mutates the cell or starts an
invocation (it does not even receive the producer), the initial cell is
empty, and after purge the cell is empty again so the strict read fails
again. -/
theorem getSettledOrThrowSync_strict (w : World) :
    (w.isEmpty = true →
      (getSettledOrThrowSync w).1 =
        Except.error ("No settled data available.")) ∧
    (w.isEmpty = false →
      (getSettledOrThrowSync w).1 = Except.ok w.settledData) ∧
    (getSettledOrThrowSync w).2 = w ∧
    World.init.isEmpty = true ∧
    (purge w).isEmpty = true := by
  have hp : (purge w).isEmpty = true := rfl
  have hi : World.init.isEmpty = true := rfl
  cases hE : w.isEmpty <;> simp [getSettledOrThrowSync, hE, hp, hi]

/-- Witness for claim C6 at the empty initial cell and at a settled
cell. -/
theorem getSettledOrThrowSync_strict_witness :
    (getSettledOrThrowSync World.init).1 =
      Except.error ("No settled data available.") ∧
    (getSettledOrThrowSync settledTrace2).1 =
      Except.ok settledTrace2.settledData :=
  ⟨(getSettledOrThrowSync_strict World.init).1 rfl,
   (getSettledOrThrowSync_strict settledTrace2).2.1 (by decide)⟩

/-- Claim C7: getSettled on a non-empty cell returns the settled datum
synchronously with the state unchanged, even while a newer refresh is
pending, and on an empty cell it calls refresh and returns the resulting
pending datum. -/
theorem getSettled_prefers_settled (p : Nat → Produced) (w : World) :
    (w.isEmpty = false → getSettled p w = (w.settledData, w)) ∧
    (w.isEmpty = true →
      getSettled p w = ((refresh p w).pendingData, refresh p w)) := by
  cases hE : w.isEmpty <;> simp [getSettled, hE]

/-- Witness for claim C7 at a stale-pending cell (settled value from
invocation zero while invocation one is in flight) and at the empty
initial cell. -/
theorem getSettled_prefers_settled_witness :
    getSettled prodSeq stalePendingCell =
      (stalePendingCell.settledData, stalePendingCell) ∧
    getSettled prodSeq World.init =
      ((refresh prodSeq World.init).pendingData, refresh prodSeq World.init) :=
  ⟨(getSettled_prefers_settled prodSeq stalePendingCell).1 (by decide),
   (getSettled_prefers_settled prodSeq World.init).2 rfl⟩

/-- Claim C9: purge on a cell whose invocation zero has already fully
settled still attaches a deferred clear, queued on the already resolved
future; a getFresh started right after has its new pending state (for
invocation one) wiped by that deferred clear at the next microtask
drain, before invocation one resolves; the settle of invocation one is
then suppressed by the isPending guard and the cell ends empty instead
of caching the new result. -/
theorem purge_after_settle_wipes_refresh :
    settledTrace2.isPending = false ∧
    settledTrace2.isEmpty = false ∧
    (purge settledTrace2).micro = [Cb.clear] ∧
    settledTrace3.1 = some (Produced.thenable 1) ∧
    settledTrace3.2.isPending = true ∧
    settledTrace3.2.pendingData = some (Produced.thenable 1) ∧
    settledTrace4.isEmpty = true ∧
    settledTrace4.isPending = false ∧
    settledTrace4.pendingData = none ∧
    settledTrace5.isEmpty = true ∧
    settledTrace5.settledData = none := by
  decide

/-- Claim C10: when the producer returns a raw value without a callable
finally method, refresh settles synchronously in the same call: the cell
is immediately non-empty and not pending, and the strict synchronous
read returns the raw value instead of failing. -/
theorem raw_result_settles_synchronously (p : Nat → Produced) (w : World)
    (v : Nat) (hP : w.isPending = false)
    (hp : p w.invCount = Produced.raw v) :
    (refresh p w).isEmpty = false ∧ (refresh p w).isPending = false ∧
    (refresh p w).settledData = some (Produced.raw v) ∧
    (getSettledOrThrowSync (refresh p w)).1 =
      Except.ok (some (Produced.raw v)) := by
  have h1 : refresh p w = invoke p w := by simp [refresh, hP]
  rw [h1]
  simp [invoke, hp, settleStep, getSettledOrThrowSync]

/-- Witness for claim C10 with a producer returning the raw value
seven. -/
theorem raw_result_settles_synchronously_witness :
    (refresh (fun _ => Produced.raw 7) World.init).isEmpty = false ∧
    (getSettledOrThrowSync
        (refresh (fun _ => Produced.raw 7) World.init)).1 =
      Except.ok (some (Produced.raw 7)) :=
  ⟨(raw_result_settles_synchronously (fun _ => Produced.raw 7)
      World.init 7 rfl rfl).1,
   (raw_result_settles_synchronously (fun _ => Produced.raw 7)
      World.init 7 rfl rfl).2.2.2⟩

end PromiseKeeper
